import Mathlib

/-!
Verification development for the Bedrock Server Manager Home Assistant
frontend cards (`custom_components/bedrock_server_manager/frontend/`).

The JavaScript card classes are shallowly embedded: attribute snapshots are
association lists of JSON values, the stateful card fields become explicit
state records, and each handler method becomes a function from the old state
(plus the inputs the handler reads) to the new state and, where applicable,
the outbound service call.  JavaScript strings are Lean `String`s; numeric
attribute values are modelled as `Int` (every value exercised by the cards is
integral); `localeCompare`-based ordering is modelled as code-point
lexicographic ordering, implemented below so that it evaluates inside the
kernel.
-/

set_option autoImplicit false

namespace BSM

/-- JSON attribute values as stored in a Home Assistant state object.
`jnull` stands for both JavaScript `null` and `undefined` attribute values. -/
inductive JsonVal where
  | jnull
  | jbool (b : Bool)
  | jnum (n : Int)
  | jstr (s : String)
  | jarr (xs : List JsonVal)
  | jobj (fields : List (String × JsonVal))

/-- Property read on a JavaScript object: first binding of the key wins
(HA attribute objects have unique keys). `none` models `undefined`. -/
def lookupKey {α : Type} : List (String × α) → String → Option α
  | [], _ => none
  | kv :: rest, k => if kv.1 = k then some kv.2 else lookupKey rest k

/-- Object spread update `{...obj, [k]: v}`: replaces the value of an
existing key in place, otherwise appends the new binding. -/
def setKey {α : Type} : List (String × α) → String → α → List (String × α)
  | [], k, v => [(k, v)]
  | kv :: rest, k, v => if kv.1 = k then (kv.1, v) :: rest else kv :: setKey rest k v

/-- JavaScript truthiness of a JSON value. -/
def truthy : JsonVal → Bool
  | .jnull => false
  | .jbool b => b
  | .jnum n => n != 0
  | .jstr s => s != ""
  | .jarr _ => true
  | .jobj _ => true

/-- Whitespace characters stripped by `String.prototype.trim` (the ASCII
subset; the cards never see exotic Unicode spaces). -/
def isJsSpace (c : Char) : Bool :=
  c == ' ' || c == '\t' || c == '\n' || c == '\r' || c == '\x0b' || c == '\x0c'

/-- JavaScript `s.trim()`. -/
def jsTrim (s : String) : String :=
  String.mk (((s.data.dropWhile isJsSpace).reverse.dropWhile isJsSpace).reverse)

/-- JavaScript `s.toLowerCase()` (ASCII). -/
def lowerStr (s : String) : String :=
  String.mk (s.data.map Char.toLower)

/-- Does `pat` occur at the head of `l`? -/
def prefixTest : List Char → List Char → Bool
  | [], _ => true
  | _ :: _, [] => false
  | p :: ps, c :: cs => p == c && prefixTest ps cs

/-- Does `pat` occur anywhere in `l`? -/
def occursIn (pat : List Char) : List Char → Bool
  | [] => prefixTest pat []
  | c :: cs => prefixTest pat (c :: cs) || occursIn pat cs

/-- JavaScript `s.includes(pat)`. -/
def jsIncludes (s pat : String) : Bool :=
  occursIn pat.data s.data

/-- Join a list of strings with a separator (JavaScript `Array.join` /
`Array.toString`). -/
def joinSep (sep : String) : List String → String
  | [] => ""
  | [x] => x
  | x :: xs => x ++ sep ++ joinSep sep xs

/-- JavaScript `String(v)` on primitive values. -/
def jsStrAtom : JsonVal → String
  | .jnull => "null"
  | .jbool b => if b then "true" else "false"
  | .jnum n => toString n
  | .jstr s => s
  | .jarr _ => ""
  | .jobj _ => "[object Object]"

/-- Elementwise rendering used by `Array.join`: `null`/`undefined` elements
render as the empty string.  (Nested arrays, which never occur in the card
data, are rendered as their own join; one level is modelled.) -/
def jsStrElems : List JsonVal → List String
  | [] => []
  | v :: vs =>
    (match v with
     | .jnull => ""
     | .jobj _ => "[object Object]"
     | w => jsStrAtom w) :: jsStrElems vs

/-- JavaScript `String(v)` for any JSON value. -/
def jsStr (v : JsonVal) : String :=
  match v with
  | .jarr xs => joinSep "," (jsStrElems xs)
  | .jobj _ => "[object Object]"
  | w => jsStrAtom w

/-- The string normalisation used in the properties card diff:
`String(x ?? '')`, where a `null`/`undefined` value collapses to `""`
(`getProperty` turns stored `null` into `undefined` first). -/
def normVal (v : JsonVal) : String :=
  match v with
  | .jnull => ""
  | w => jsStr w

/-- A Home Assistant service invocation `hass.callService(DOMAIN, service, data)`. -/
structure ServiceCall where
  service : String
  data : List (String × JsonVal)

/-! ### Entity/Device Resolver

`_getTargetDeviceId` in the cards inspects two sources: the entity-registry
entry `hass.entities[entityId].device_id` and the state attribute
`stateObj.attributes.device_id`.  Each individual lookup accepts only a
truthy string with non-blank trim, and returns it trimmed. -/

/-- One lookup leg: models
`x && typeof x === 'string' && x.trim() !== ''` yielding `x.trim()`. -/
def yieldDeviceId : Option JsonVal → Option String
  | some (.jstr s) => if s ≠ "" ∧ jsTrim s ≠ "" then some (jsTrim s) else none
  | _ => none

/-- `_getTargetDeviceId` of `bsm-properties-card.js` (and the inline
resolution in `bsm-restore-card.js` / its revision): registry first, state
attribute as the fallback. -/
def getTargetDeviceId_props (regDeviceId attrDeviceId : Option JsonVal) : Option String :=
  match yieldDeviceId regDeviceId with
  | some s => some s
  | none => yieldDeviceId attrDeviceId

/-- `_getTargetDeviceId` of `bsm-allowlist-card.js`: state attribute first,
registry as the fallback. -/
def getTargetDeviceId_allowlist (attrDeviceId regDeviceId : Option JsonVal) : Option String :=
  match yieldDeviceId attrDeviceId with
  | some s => some s
  | none => yieldDeviceId regDeviceId

/-! ### Properties card (`bsm-properties-card.js`) -/

def EDITABLE_PROPERTIES : List String :=
  ["server-name", "level-name", "gamemode", "difficulty", "allow-cheats", "max-players",
   "online-mode", "default-player-permission-level", "view-distance",
   "tick-distance", "level-seed", "texturepack-required",
   "server-port", "server-portv6", "enable-lan-visibility", "allow-list"]

/-- The change-set loop of `_saveProperties`: for each editable key present in
both the baseline and the staged edits, include the staged value exactly when
the string-normalised forms differ. -/
def computeChangedProperties (cur edits : List (String × JsonVal)) : List (String × JsonVal) :=
  EDITABLE_PROPERTIES.filterMap fun key =>
    match lookupKey cur key, lookupKey edits key with
    | some ov, some ev => if normVal ov ≠ normVal ev then some (key, ev) else none
    | _, _ => none

/-- The `number:` selector configuration built in `_renderPropertySelector`. -/
structure NumberSelector where
  min : Int
  max : Int
  step : Int
  mode : String

/-- The numeric branch of the `switch` in `_renderPropertySelector`
(`none` for keys rendered with text/select/boolean selectors). -/
def numberSelectorConfig (propKey : String) : Option NumberSelector :=
  if propKey = "max-players" ∨ propKey = "server-port" ∨ propKey = "server-portv6" ∨
     propKey = "view-distance" ∨ propKey = "tick-distance" then
    if propKey = "max-players" then some ⟨1, 200, 1, "box"⟩
    else if propKey = "view-distance" then some ⟨3, 32, 1, "slider"⟩
    else if propKey = "tick-distance" then some ⟨4, 12, 1, "box"⟩
    else some ⟨1, 65535, 1, "box"⟩
  else none

/-- The card state touched by `_saveProperties` and `_callService`. -/
structure PropsState where
  currentProperties : List (String × JsonVal)
  editValues : List (String × JsonVal)
  error : Option String
  feedback : String

/-- Synchronous part of `_saveProperties`: resolve the target, compute the
change-set, and either abort with an inline error or emit the
`update_properties` call. -/
def savePropertiesAction (st : PropsState) (targetDeviceId : Option String) :
    PropsState × Option ServiceCall :=
  match targetDeviceId with
  | none =>
    ({ st with error := some "Error: Could not determine target device ID from the selected sensor.",
               feedback := "" }, none)
  | some d =>
    let changed := computeChangedProperties st.currentProperties st.editValues
    if changed.isEmpty then
      ({ st with error := some "No changes detected to save.", feedback := "" }, none)
    else
      (st, some ⟨"update_properties", [("device_id", .jstr d), ("properties", .jobj changed)]⟩)

/-- A failure value delivered to a `catch (err)` handler of a service call. -/
inductive JsErrVal where
  | errObj (message : String)
  | jsObj (errorField : Option JsonVal) (messageField : Option JsonVal)
  | jsStrErr (s : String)
  | otherPrim

/-- The best-effort message extraction chain shared by the cards:
`Error` instance, then a truthy `err.error` field, then a truthy
`err.message` field, then a plain string; `none` when no shape matches. -/
def extractMessage : JsErrVal → Option String
  | .errObj m => some m
  | .jsObj eField mField =>
    match eField with
    | some v =>
      if truthy v then some (jsStr v)
      else match mField with
           | some w => if truthy w then some (jsStr w) else none
           | none => none
    | none =>
      match mField with
      | some w => if truthy w then some (jsStr w) else none
      | none => none
  | .jsStrErr s => some s
  | .otherPrim => none

/-- JavaScript spread merge `{...cur, ...changed}`. -/
def mergeProps (cur changed : List (String × JsonVal)) : List (String × JsonVal) :=
  changed.foldl (fun acc kv => setKey acc kv.1 kv.2) cur

/-- Completion of `_saveProperties` / `_callService`: on failure the error is
surfaced via the extraction chain and the staged edits stay untouched; only
on success are the baseline and the edit values replaced. -/
def savePropertiesFinish (st : PropsState) (changed : List (String × JsonVal))
    (outcome : Option JsErrVal) : PropsState :=
  match outcome with
  | none =>
    let newProps := mergeProps st.currentProperties changed
    { st with feedback := "Properties update requested. Changes will reflect after the next server poll or restart.",
              error := none,
              currentProperties := newProps,
              editValues := newProps }
  | some err =>
    { st with error := some ("Error: " ++ ((extractMessage err).getD "An unknown error occurred. Check HA logs.")),
              feedback := "" }

/-! ### Allowlist card (`bsm-allowlist-card.js`) -/

/-- The card state touched by `_addPlayer` / `_removePlayer`. -/
structure AllowlistState where
  currentAllowlist : List String
  newPlayerName : String
  addIgnoresLimit : Bool
  error : Option String
  feedback : String

/-- Synchronous part of `_addPlayer`: target guard, empty-name guard,
duplicate guard, then the `add_to_allowlist` call. -/
def addPlayerAction (st : AllowlistState) :
    Option String → AllowlistState × Option ServiceCall
  | none =>
    ({ st with error := some "Cannot add player: Target device ID for the selected server is missing or invalid. Please check the sensor entity configuration and attributes in Home Assistant.",
               feedback := "" }, none)
  | some d =>
    let playerName := jsTrim st.newPlayerName
    if playerName = "" then
      ({ st with error := some "Please enter a player name to add.", feedback := "" }, none)
    else if st.currentAllowlist.contains playerName then
      ({ st with error := some (playerName ++ " is already on the allowlist."), feedback := "" }, none)
    else
      (st, some ⟨"add_to_allowlist",
        [("device_id", .jstr d), ("players", .jarr [.jstr playerName]),
         ("ignores_player_limit", .jbool st.addIgnoresLimit)]⟩)

/-- Synchronous part of `_removePlayer`: a falsy player name returns
silently, a missing target aborts with an error, otherwise the
`remove_from_allowlist` call is emitted. -/
def removePlayerAction (st : AllowlistState) (targetDeviceId : Option String)
    (playerName : String) : AllowlistState × Option ServiceCall :=
  if playerName = "" then (st, none)
  else
    match targetDeviceId with
    | none =>
      ({ st with error := some "Cannot remove player: Target device ID for the selected server is missing or invalid. Please check the sensor entity configuration and attributes in Home Assistant.",
                 feedback := "" }, none)
    | some d =>
      (st, some ⟨"remove_from_allowlist",
        [("device_id", .jstr d), ("player_name", .jstr playerName)]⟩)

/-! ### Permissions card (`bsm-permissions-card.js`) -/

def VALID_PERMISSIONS : List String := ["visitor", "member", "operator"]

/-- A entry of the `server_permissions` sensor attribute. -/
structure PermEntry where
  xuid : String
  permission_level : String

/-- A entry of the `global_players_list` sensor attribute. -/
structure Player where
  xuid : String
  name : String

/-- The card state touched by the staging handlers and `_savePermissions`. -/
structure PermState where
  currentServerPermissions : List PermEntry
  editData : List (String × String)
  globalPlayers : List Player
  newPlayerSelectedXUID : String
  newPlayerManualXUID : String
  newPlayerManualName : String
  newPlayerPermissionLevel : String
  error : Option String
  feedback : String

/-- `_handlePermissionLevelChange`: an invalid level is ignored (warn only);
a valid one is staged unconditionally into the edit overlay. -/
def handlePermissionLevelChange (st : PermState) (xuid newLevel : String) : PermState :=
  if ¬ VALID_PERMISSIONS.contains newLevel then st
  else { st with editData := setKey st.editData xuid newLevel, feedback := "", error := none }

/-- Shared tail of `_stageNewPlayerPermission` once the XUID and the display
name are determined: validate the level, reject duplicates against both the
baseline permissions and the already-staged overlay, then stage. -/
def stagePermissionWith (st : PermState) (xuidToAdd nameForDisplay : String) : PermState :=
  if ¬ VALID_PERMISSIONS.contains st.newPlayerPermissionLevel then
    { st with error := some "Invalid permission level selected." }
  else if st.currentServerPermissions.any (fun p => p.xuid == xuidToAdd) ||
          (lookupKey st.editData xuidToAdd).isSome then
    { st with error := some ("Player with XUID " ++ xuidToAdd ++ " already has permissions defined or staged for this server. Edit the existing entry instead.") }
  else
    { st with editData := setKey st.editData xuidToAdd st.newPlayerPermissionLevel,
              feedback := "Staged permission for " ++ nameForDisplay ++ " (" ++ xuidToAdd ++ ") to " ++ st.newPlayerPermissionLevel ++ ". Click Save Changes to apply.",
              error := none,
              newPlayerSelectedXUID := "", newPlayerManualXUID := "",
              newPlayerManualName := "", newPlayerPermissionLevel := "visitor" }

/-- `_stageNewPlayerPermission`: pick the XUID (selected known player or
manual entry), then run the shared staging tail. -/
def stageNewPlayerPermission (st : PermState) : PermState :=
  if st.newPlayerSelectedXUID ≠ "" then
    let xuidToAdd := st.newPlayerSelectedXUID
    let nameForDisplay :=
      match st.globalPlayers.find? (fun p => p.xuid == xuidToAdd) with
      | some p => p.name
      | none => "XUID: " ++ xuidToAdd
    stagePermissionWith st xuidToAdd nameForDisplay
  else if st.newPlayerManualXUID ≠ "" then
    let xuidToAdd := st.newPlayerManualXUID
    if xuidToAdd = "" then { st with error := some "Manual XUID cannot be empty." }
    else
      let nameForDisplay :=
        if jsTrim st.newPlayerManualName ≠ "" then jsTrim st.newPlayerManualName
        else "XUID: " ++ xuidToAdd
      stagePermissionWith st xuidToAdd nameForDisplay
  else
    { st with error := some "Please select a known player OR enter a manual XUID." }

/-- The XUID `_stageNewPlayerPermission` will try to stage (selected known
player first, else the manual field), mirroring its branch selection. -/
def resolvedNewXuid (st : PermState) : Option String :=
  if st.newPlayerSelectedXUID ≠ "" then some st.newPlayerSelectedXUID
  else if st.newPlayerManualXUID ≠ "" then some st.newPlayerManualXUID
  else none

/-- Synchronous part of `_savePermissions` up to the service call: guards for
a selected entity, a non-empty staged overlay and a resolved device id, then
the `set_permissions` call carrying the whole overlay. -/
def savePermissionsAction (st : PermState) (hasSelectedEntity : Bool)
    (targetDeviceId : Option String) : PermState × Option ServiceCall :=
  if !hasSelectedEntity then
    ({ st with error := some "Error: No server selected." }, none)
  else if st.editData.isEmpty then
    ({ st with error := some "Error: No changes are staged for saving." }, none)
  else
    match targetDeviceId with
    | none =>
      ({ st with error := some "Error: Could not determine the target Device ID for the selected server entity. Cannot save permissions. Check entity configuration.",
                 feedback := "" }, none)
    | some d =>
      ({ st with feedback := "Saving permissions changes...", error := none },
       some ⟨"set_permissions",
         [("device_id", .jstr d),
          ("permissions", .jobj (st.editData.map fun kv => (kv.1, .jstr kv.2)))]⟩)

/-- Completion of `_savePermissions`: only success clears the overlay; a
failure surfaces the extracted message and leaves the overlay intact. -/
def savePermissionsFinish (st : PermState) (outcome : Option JsErrVal) : PermState :=
  match outcome with
  | none =>
    { st with feedback := "Permissions update successfully requested. The list will refresh automatically when the server reports the changes.",
              editData := [] }
  | some err =>
    { st with error := some ("Error saving permissions: " ++ ((extractMessage err).getD "An unknown error occurred. Check Home Assistant logs.")),
              feedback := "" }

/-- Are all staged overlay values valid permission levels? -/
def validLevels (editData : List (String × String)) : Bool :=
  editData.all fun kv => VALID_PERMISSIONS.contains kv.2

/-! ### Restore card (`bsm-restore-card.js` and its revision)

The backup list is sorted with `.sort((a, b) => b.localeCompare(a))`;
`localeCompare` is modelled as code-point lexicographic comparison,
implemented on `List Char` so that it evaluates inside the kernel. -/

/-- Code-point lexicographic strict comparison on character lists. -/
def lexLt : List Char → List Char → Bool
  | [], [] => false
  | [], _ :: _ => true
  | _ :: _, [] => false
  | a :: as_, b :: bs =>
    if a.toNat < b.toNat then true
    else if b.toNat < a.toNat then false
    else lexLt as_ bs

/-- Strict "less than" on strings, by code points. -/
def strLt (a b : String) : Bool := lexLt a.data b.data

/-- Descending order relation on strings (no later element is code-point
greater), used to state sortedness of the backup lists. -/
def descRel (a b : String) : Prop := strLt a b = false

/-- One step of insertion sort for the descending order. -/
def insDesc (x : String) : List String → List String
  | [] => [x]
  | y :: ys => if strLt y x then x :: y :: ys else y :: insDesc x ys

/-- Descending sort by code points, the deterministic model of
`list.sort((a, b) => b.localeCompare(a))` (duplicates are identical strings,
so stability cannot be observed). -/
def sortDesc (l : List String) : List String := l.foldr insDesc []

/-- The backup-file filter applied before sorting:
`item && typeof item === 'string' && item.trim() !== ''`. -/
def validBackupNames (files : List JsonVal) : List String :=
  files.filterMap fun f =>
    match f with
    | .jstr s => if s ≠ "" ∧ jsTrim s ≠ "" then some s else none
    | _ => none

/-- The shared list-update step of `_processSelectedSensor`: filter, sort
descending, and when the sorted list differs from the stored one
(`JSON.stringify` comparison), replace it and default the selection to the
first (latest) entry.  Returns `(availableBackups, selectedBackupFile)`. -/
def processFoundList (found : List JsonVal) (prevAvail : List String) (prevSel : String) :
    List String × String :=
  let sortedBackups := sortDesc (validBackupNames found)
  if sortedBackups = prevAvail then (prevAvail, prevSel)
  else (sortedBackups, sortedBackups.headD "")

/-- Candidate attribute keys of the original `bsm-restore-card.js`. -/
def OLD_CANDIDATES : List String :=
  ["world_backups_list", "config_backups_list", "backup_files", "files", "backups_list", "backups"]

/-- Candidate attribute keys of the revised restore card. -/
def P0_CANDIDATES : List String :=
  ["world_backups_list", "properties_backups_list", "allowlist_backups_list",
   "permissions_backups_list", "config_backups_list", "backups", "backup_files",
   "files", "backups_list"]

/-- First candidate key (in list order) whose attribute value is an array:
the generic ingestion loop `for (const attrKey of BACKUP_LIST_ATTRIBUTE_CANDIDATES)`. -/
def firstArrayAttr (attrs : List (String × JsonVal)) : List String → Option (String × List JsonVal)
  | [] => none
  | k :: ks =>
    match lookupKey attrs k with
    | some (.jarr xs) => some (k, xs)
    | _ => firstArrayAttr attrs ks

/-- Is the attribute under `k` an array? -/
def isArrayAttr (attrs : List (String × JsonVal)) (k : String) : Bool :=
  match lookupKey attrs k with
  | some (.jarr _) => true
  | _ => false

/-- Backup type inferred from the lower-cased display-name hint in the
original card loop. -/
def typeFromNameOld (nameHintLower : String) : String :=
  if jsIncludes nameHintLower "world" then "world"
  else if jsIncludes nameHintLower "config" then "config"
  else "unknown"

/-- Step 2 of the original card `_processSelectedSensor`: explicit checks of
the two specific keys, then the candidate loop with name-based inference.
Result: `(listAttributeName, determinedBackupType, foundBackupList)`. -/
def processBackupAttrs_old (attrs : List (String × JsonVal)) (nameHintLower : String) :
    Option (String × String × List JsonVal) :=
  match lookupKey attrs "world_backups_list" with
  | some (.jarr xs) => some ("world_backups_list", "world", xs)
  | _ =>
    match lookupKey attrs "config_backups_list" with
    | some (.jarr xs) => some ("config_backups_list", "config", xs)
    | _ =>
      (firstArrayAttr attrs OLD_CANDIDATES).map fun kl =>
        (kl.1, typeFromNameOld nameHintLower, kl.2)

/-- JavaScript `cat.replace(/_backups$/, '')`. -/
def stripBackupsSuffix (s : String) : String :=
  if prefixTest "_backups".data.reverse s.data.reverse then
    String.mk (s.data.reverse.drop 8).reverse
  else s

/-- JavaScript `s.replace(/_/, ' ')` (first underscore only). -/
def replaceFirstUnderscoreL : List Char → List Char
  | [] => []
  | c :: cs => if c == '_' then ' ' :: cs else c :: replaceFirstUnderscoreL cs

/-- Word characters of the regex class `\w`. -/
def isWordChar (c : Char) : Bool :=
  ('a' ≤ c && c ≤ 'z') || ('A' ≤ c && c ≤ 'Z') || ('0' ≤ c && c ≤ '9') || c == '_'

/-- JavaScript `s.replace(/\b\w/g, l => l.toUpperCase())`. -/
def capWordsGo (prevWord : Bool) : List Char → List Char
  | [] => []
  | c :: cs =>
    (if isWordChar c && !prevWord then Char.toUpper c else c) :: capWordsGo (isWordChar c) cs

/-- The display-category transform of the revised card:
`category.replace(/_backups$/, '').replace(/_/, ' ').replace(/\b\w/g, l => l.toUpperCase())`. -/
def displayCategory (cat : String) : String :=
  String.mk (capWordsGo false (replaceFirstUnderscoreL (stripBackupsSuffix cat).data))

/-- Combination of the per-category file lists of a categorized `backups`
object into category-prefixed display entries. -/
def combineCategorized (fields : List (String × JsonVal)) : List JsonVal :=
  fields.foldl
    (fun acc cv =>
      match cv.2 with
      | .jarr files =>
        acc ++ files.filterMap fun f =>
          match f with
          | .jstr s =>
            if s ≠ "" ∧ jsTrim s ≠ "" then some (JsonVal.jstr (displayCategory cv.1 ++ ": " ++ s))
            else none
          | _ => none
      | _ => acc)
    []

/-- Backup type inferred from a name hint in the revised card generic branch. -/
def typeFromName_p0 (nameHintLower : String) : String :=
  if jsIncludes nameHintLower "world" then "world"
  else if jsIncludes nameHintLower "properties" then "properties"
  else if jsIncludes nameHintLower "allowlist" then "allowlist"
  else if jsIncludes nameHintLower "permissions" then "permissions"
  else "unknown"

/-- Backup type determined from a matched candidate key in the revised card
fallback loop (note: no `config` branch exists there). -/
def typeFromAttrKey (attrKey : String) : String :=
  if jsIncludes attrKey "world" then "world"
  else if jsIncludes attrKey "properties" then "properties"
  else if jsIncludes attrKey "allowlist" then "allowlist"
  else if jsIncludes attrKey "permissions" then "permissions"
  else "unknown"

/-- Ingestion outcome of the revised card. -/
inductive IngestOutcome where
  | found (attrName : String) (backupType : String) (files : List JsonVal)
  | noMatch

/-- Projection of an ingestion outcome onto the adopted attribute key and its
raw list (used to compare ingestion strategies). -/
def ingestKeyFiles : IngestOutcome → Option (String × List JsonVal)
  | .found a _ fs => some (a, fs)
  | .noMatch => none

/-- Step 2 of the revised card `_processSelectedSensor`: the `backups`
attribute is examined first (a non-array object is the categorized `all`
shape, an array is a generic list), and only then the candidate keys in
list order. -/
def processBackupAttrs_p0 (attrs : List (String × JsonVal)) (nameHintLower : String) :
    IngestOutcome :=
  match lookupKey attrs "backups" with
  | some (.jobj fields) => .found "backups" "all" (combineCategorized fields)
  | some (.jarr xs) => .found "backups" (typeFromName_p0 nameHintLower) xs
  | _ =>
    match firstArrayAttr attrs P0_CANDIDATES with
    | some kl => .found kl.1 (typeFromAttrKey kl.1) kl.2
    | none => .noMatch

/-- The card state touched by ingestion and the restore handlers
(the display-name derivation feeds only confirmation prompts and is not
modelled). -/
structure RestoreState where
  targetDeviceId : Option String
  backupType : Option String
  availableBackups : List String
  selectedBackupFile : String
  error : Option String
  feedback : String

/-- The reset state installed by `_handleSensorSelection`. -/
def resetRestoreState : RestoreState :=
  { targetDeviceId := none, backupType := none, availableBackups := [],
    selectedBackupFile := "", error := none, feedback := "" }

/-- The `friendly_name || entityId.split('.').pop() || ''` name hint. -/
def friendlyNameHint (attrs : List (String × JsonVal)) (entityIdTail : String) : String :=
  match lookupKey attrs "friendly_name" with
  | some (.jstr s) => if s ≠ "" then s else entityIdTail
  | _ => entityIdTail

/-- `_processSelectedSensor` of the revised card: device-id resolution
(registry first), backup-list ingestion, then the shared filter/sort/select
step with its feedback and error messages. -/
def processSelectedSensor_p0 (regDeviceId : Option JsonVal) (attrs : List (String × JsonVal))
    (entityIdTail : String) (st : RestoreState) : RestoreState :=
  let deviceId := getTargetDeviceId_props regDeviceId (lookupKey attrs "device_id")
  let nameHint := lowerStr (friendlyNameHint attrs entityIdTail)
  match processBackupAttrs_p0 attrs nameHint with
  | .found attrName btype files =>
    let avsel := processFoundList files st.availableBackups st.selectedBackupFile
    { st with targetDeviceId := deviceId,
              backupType := some btype,
              availableBackups := avsel.1,
              selectedBackupFile := avsel.2,
              error := none,
              feedback :=
                if avsel.1.isEmpty then
                  "No valid backup files found in attribute " ++ attrName ++ "."
                else "" }
  | .noMatch =>
    { st with targetDeviceId := deviceId,
              backupType := none,
              availableBackups := [],
              selectedBackupFile := "",
              error := some ("Could not find a recognized backup list attribute. Checked: " ++
                joinSep ", " P0_CANDIDATES ++ "."),
              feedback := "" }

/-- Display names of the API backup types in the revised card. -/
def BACKUP_TYPE_DISPLAY_NAMES : List (String × String) :=
  [("world", "World"), ("properties", "Properties"), ("allowlist", "Allowlist"),
   ("permissions", "Permissions"), ("config", "Configuration"),
   ("all", "All Backups (Categorized)")]

/-- Split on the exact separator `": "`, left to right (JavaScript
`s.split(": ")`). -/
def splitColonSpace : List Char → List (List Char)
  | [] => [[]]
  | [c] => [[c]]
  | ':' :: ' ' :: rest => [] :: splitColonSpace rest
  | c :: rest =>
    match splitColonSpace rest with
    | [] => [[c]]
    | chunk :: chunks => (c :: chunk) :: chunks

/-- JavaScript `s.split(": ")` on strings. -/
def jsSplitColonSpace (s : String) : List String :=
  (splitColonSpace s.data).map String.mk

/-- `_restoreSelectedBackup` of the revised card: guards for target, file and
type; for the categorized `all` type the selected display entry is
decomposed back into the concrete restore type and file name before the
`restore_backup` call. -/
def restoreSelectedAction (st : RestoreState) : RestoreState × Option ServiceCall :=
  match st.targetDeviceId with
  | none =>
    ({ st with error := some "Target Device ID not found for the selected sensor. Cannot send restore command." }, none)
  | some d =>
    if st.selectedBackupFile = "" then
      ({ st with error := some "No backup file selected." }, none)
    else
      match st.backupType with
      | none =>
        ({ st with error := some "Backup type (world/properties/allowlist/permissions/all) could not be determined for the selected sensor. Cannot restore." }, none)
      | some t =>
        if t = "unknown" then
          ({ st with error := some "Backup type (world/properties/allowlist/permissions/all) could not be determined for the selected sensor. Cannot restore." }, none)
        else if t = "all" then
          let parts := jsSplitColonSpace st.selectedBackupFile
          if parts.length < 2 then
            ({ st with error := some ("Invalid backup file format for the all type: " ++ st.selectedBackupFile ++ ".") }, none)
          else
            let displayCat := parts.headD ""
            let serviceBackupFile := joinSep ": " parts.tail
            let serviceRestoreType :=
              match BACKUP_TYPE_DISPLAY_NAMES.find? (fun kv => kv.2 == displayCat) with
              | some kv => kv.1
              | none => t
            if serviceRestoreType = "all" ∨ serviceRestoreType = "unknown" then
              ({ st with error := some ("Could not determine specific backup type from " ++ displayCat ++ " for restore.") }, none)
            else
              (st, some ⟨"restore_backup",
                [("device_id", .jstr d), ("restore_type", .jstr serviceRestoreType),
                 ("backup_file", .jstr serviceBackupFile)]⟩)
        else
          (st, some ⟨"restore_backup",
            [("device_id", .jstr d), ("restore_type", .jstr t),
             ("backup_file", .jstr st.selectedBackupFile)]⟩)

/-! ### Helper lemmas -/

theorem lookupKey_some_mem {α : Type} {l : List (String × α)} {k : String} {v : α}
    (h : lookupKey l k = some v) : (k, v) ∈ l := by
  induction l with
  | nil => simp [lookupKey] at h
  | cons kv rest ih =>
    unfold lookupKey at h
    split at h
    · rename_i heq
      obtain ⟨rfl⟩ := Option.some.injEq _ _ ▸ h
      cases kv with
      | mk k1 v1 =>
        simp at heq
        subst heq
        simp_all
    · exact List.mem_cons_of_mem _ (ih h)

theorem lookupKey_eq_none {α : Type} {l : List (String × α)} {k : String}
    (h : ∀ v, (k, v) ∉ l) : lookupKey l k = none := by
  induction l with
  | nil => rfl
  | cons kv rest ih =>
    unfold lookupKey
    split
    · rename_i heq
      exact absurd (by cases kv; simp_all) (h kv.2)
    · exact ih fun v hv => h v (List.mem_cons_of_mem _ hv)

theorem mem_computeChangedProperties {cur edits : List (String × JsonVal)}
    {k : String} {v : JsonVal} :
    (k, v) ∈ computeChangedProperties cur edits ↔
      k ∈ EDITABLE_PROPERTIES ∧ ∃ ov, lookupKey cur k = some ov ∧
        lookupKey edits k = some v ∧ normVal ov ≠ normVal v := by
  unfold computeChangedProperties
  rw [List.mem_filterMap]
  constructor
  · rintro ⟨a, ha, hf⟩
    cases hcur : lookupKey cur a with
    | none => simp [hcur] at hf
    | some ov =>
      cases hed : lookupKey edits a with
      | none => simp [hcur, hed] at hf
      | some ev =>
        simp only [hcur, hed] at hf
        split at hf
        · rename_i hne
          obtain ⟨rfl, rfl⟩ := Prod.mk.injEq _ _ _ _ ▸ Option.some.inj hf
          exact ⟨ha, ov, hcur, hed, hne⟩
        · exact absurd hf (by simp)
  · rintro ⟨hk, ov, hcur, hed, hne⟩
    exact ⟨k, hk, by simp [hcur, hed, hne]⟩

theorem lookup_computeChangedProperties_eq_none {cur edits : List (String × JsonVal)}
    {k : String} {ov ev : JsonVal} (hcur : lookupKey cur k = some ov)
    (hed : lookupKey edits k = some ev) (heq : normVal ov = normVal ev) :
    lookupKey (computeChangedProperties cur edits) k = none := by
  refine lookupKey_eq_none fun v hv => ?_
  obtain ⟨-, ov2, hcur2, hed2, hne2⟩ := mem_computeChangedProperties.mp hv
  rw [hcur] at hcur2
  rw [hed] at hed2
  obtain rfl := Option.some.inj hcur2
  obtain rfl := Option.some.inj hed2
  exact hne2 heq

theorem validLevels_setKey {l : List (String × String)} {k lvl : String}
    (hl : validLevels l = true) (hlvl : VALID_PERMISSIONS.contains lvl = true) :
    validLevels (setKey l k lvl) = true := by
  induction l with
  | nil =>
    simp only [setKey, validLevels, List.all_cons, List.all_nil, Bool.and_true]
    exact hlvl
  | cons kv rest ih =>
    simp only [validLevels, List.all_cons, Bool.and_eq_true] at hl
    unfold setKey
    split
    · simp only [validLevels, List.all_cons, Bool.and_eq_true]
      exact ⟨hlvl, hl.2⟩
    · simp only [validLevels, List.all_cons, Bool.and_eq_true]
      exact ⟨hl.1, ih hl.2⟩

theorem lexLt_irrefl (l : List Char) : lexLt l l = false := by
  induction l with
  | nil => rfl
  | cons a as_ ih => simp [lexLt, ih]

theorem lexLt_cons {a b : Char} {as_ bs : List Char} :
    lexLt (a :: as_) (b :: bs) = true ↔
      a.toNat < b.toNat ∨ (a.toNat = b.toNat ∧ lexLt as_ bs = true) := by
  show (if a.toNat < b.toNat then true
        else if b.toNat < a.toNat then false else lexLt as_ bs) = true ↔ _
  by_cases h1 : a.toNat < b.toNat
  · simp [h1]
  · by_cases h2 : b.toNat < a.toNat
    · simp only [if_neg h1, if_pos h2]
      constructor
      · intro h
        exact absurd h (by simp)
      · intro h
        omega
    · simp only [if_neg h1, if_neg h2]
      constructor
      · intro h
        exact Or.inr ⟨by omega, h⟩
      · rintro (h | ⟨-, h⟩)
        · omega
        · exact h

theorem lexLt_trans : ∀ {a b c : List Char},
    lexLt a b = true → lexLt b c = true → lexLt a c = true := by
  intro a
  induction a with
  | nil =>
    intro b c hab hbc
    cases b with
    | nil => simp [lexLt] at hab
    | cons bh bt =>
      cases c with
      | nil => simp [lexLt] at hbc
      | cons ch ct => simp [lexLt]
  | cons ah at_ ih =>
    intro b c hab hbc
    cases b with
    | nil => simp [lexLt] at hab
    | cons bh bt =>
      cases c with
      | nil => simp [lexLt] at hbc
      | cons ch ct =>
        rw [lexLt_cons] at hab hbc ⊢
        rcases hab with h1 | ⟨h1, hr1⟩ <;> rcases hbc with h2 | ⟨h2, hr2⟩
        · exact Or.inl (by omega)
        · exact Or.inl (by omega)
        · exact Or.inl (by omega)
        · exact Or.inr ⟨by omega, ih hr1 hr2⟩

theorem strLt_asymm {a b : String} (h : strLt a b = true) : strLt b a = false := by
  cases he : strLt b a with
  | false => rfl
  | true =>
    have := lexLt_trans (a := a.data) h he
    rw [lexLt_irrefl] at this
    exact absurd this (by simp)

theorem perm_insDesc (x : String) (l : List String) : List.Perm (insDesc x l) (x :: l) := by
  induction l with
  | nil => exact List.Perm.refl _
  | cons y ys ih =>
    unfold insDesc
    split
    · exact List.Perm.refl _
    · exact (List.Perm.cons y ih).trans (List.Perm.swap x y ys)

theorem sorted_insDesc {x : String} {l : List String} (h : l.Sorted descRel) :
    (insDesc x l).Sorted descRel := by
  induction l with
  | nil => simp [insDesc, List.sorted_singleton]
  | cons y ys ih =>
    rw [List.sorted_cons] at h
    obtain ⟨hy, hys⟩ := h
    unfold insDesc
    split
    · rename_i hyx
      rw [List.sorted_cons]
      refine ⟨fun b hb => ?_, List.sorted_cons.mpr ⟨hy, hys⟩⟩
      rcases List.mem_cons.mp hb with rfl | hb
      · exact strLt_asymm hyx
      · have hyb := hy b hb
        show strLt x b = false
        cases he : strLt x b with
        | false => rfl
        | true =>
          have := lexLt_trans (a := y.data) hyx he
          rw [show lexLt y.data b.data = strLt y b from rfl, hyb] at this
          exact absurd this (by simp)
    · rename_i hyx
      rw [List.sorted_cons]
      refine ⟨fun b hb => ?_, ih hys⟩
      have hb2 := (perm_insDesc x ys).mem_iff.mp hb
      rcases List.mem_cons.mp hb2 with rfl | hb2
      · show strLt y b = false
        exact Bool.eq_false_iff.mpr hyx
      · exact hy b hb2

theorem perm_sortDesc (l : List String) : List.Perm (sortDesc l) l := by
  induction l with
  | nil => exact List.Perm.refl _
  | cons x xs ih => exact (perm_insDesc x (sortDesc xs)).trans (List.Perm.cons x ih)

theorem sorted_sortDesc (l : List String) : (sortDesc l).Sorted descRel := by
  induction l with
  | nil => simp [sortDesc]
  | cons x xs ih => exact sorted_insDesc ih

theorem firstArrayAttr_drop_nonmatching {attrs : List (String × JsonVal)} {k : String}
    (hk : isArrayAttr attrs k = false) (l1 l2 : List String) :
    firstArrayAttr attrs (l1 ++ k :: l2) = firstArrayAttr attrs (l1 ++ l2) := by
  induction l1 with
  | nil =>
    show firstArrayAttr attrs (k :: l2) = firstArrayAttr attrs l2
    rw [firstArrayAttr]
    unfold isArrayAttr at hk
    cases h : lookupKey attrs k with
    | none => simp only [h]
    | some v =>
      rw [h] at hk
      cases v <;> simp only [h] <;> simp at hk
  | cons a l1 ih =>
    show firstArrayAttr attrs (a :: (l1 ++ k :: l2)) = firstArrayAttr attrs (a :: (l1 ++ l2))
    rw [firstArrayAttr, firstArrayAttr]
    cases h : lookupKey attrs a with
    | none => simp only [h]; exact ih
    | some v =>
      cases v <;> simp only [h] <;> first | rfl | exact ih

theorem processBackupAttrs_old_eq (attrs : List (String × JsonVal)) (hint : String) :
    (processBackupAttrs_old attrs hint).map (fun r => (r.1, r.2.2)) =
      firstArrayAttr attrs OLD_CANDIDATES := by
  unfold processBackupAttrs_old OLD_CANDIDATES
  rw [firstArrayAttr]
  cases h1 : lookupKey attrs "world_backups_list" with
  | none =>
    simp only [h1]
    rw [firstArrayAttr]
    cases h2 : lookupKey attrs "config_backups_list" with
    | none =>
      simp only [h2]
      cases hf : firstArrayAttr attrs ["backup_files", "files", "backups_list", "backups"] <;>
        simp [hf]
    | some v =>
      cases v <;> simp only [h2] <;>
        (try rfl) <;>
        (cases hf : firstArrayAttr attrs ["backup_files", "files", "backups_list", "backups"] <;>
          simp [hf])
  | some v =>
    cases v with
    | jarr xs => simp [h1]
    | jnull =>
      simp only [h1]
      rw [firstArrayAttr]
      cases h2 : lookupKey attrs "config_backups_list" with
      | none =>
        simp only [h2]
        cases hf : firstArrayAttr attrs ["backup_files", "files", "backups_list", "backups"] <;>
          simp [hf]
      | some w =>
        cases w <;> simp only [h2] <;>
          (try rfl) <;>
          (cases hf : firstArrayAttr attrs ["backup_files", "files", "backups_list", "backups"] <;>
            simp [hf])
    | jbool b =>
      simp only [h1]
      rw [firstArrayAttr]
      cases h2 : lookupKey attrs "config_backups_list" with
      | none =>
        simp only [h2]
        cases hf : firstArrayAttr attrs ["backup_files", "files", "backups_list", "backups"] <;>
          simp [hf]
      | some w =>
        cases w <;> simp only [h2] <;>
          (try rfl) <;>
          (cases hf : firstArrayAttr attrs ["backup_files", "files", "backups_list", "backups"] <;>
            simp [hf])
    | jnum n =>
      simp only [h1]
      rw [firstArrayAttr]
      cases h2 : lookupKey attrs "config_backups_list" with
      | none =>
        simp only [h2]
        cases hf : firstArrayAttr attrs ["backup_files", "files", "backups_list", "backups"] <;>
          simp [hf]
      | some w =>
        cases w <;> simp only [h2] <;>
          (try rfl) <;>
          (cases hf : firstArrayAttr attrs ["backup_files", "files", "backups_list", "backups"] <;>
            simp [hf])
    | jstr s =>
      simp only [h1]
      rw [firstArrayAttr]
      cases h2 : lookupKey attrs "config_backups_list" with
      | none =>
        simp only [h2]
        cases hf : firstArrayAttr attrs ["backup_files", "files", "backups_list", "backups"] <;>
          simp [hf]
      | some w =>
        cases w <;> simp only [h2] <;>
          (try rfl) <;>
          (cases hf : firstArrayAttr attrs ["backup_files", "files", "backups_list", "backups"] <;>
            simp [hf])
    | jobj fields =>
      simp only [h1]
      rw [firstArrayAttr]
      cases h2 : lookupKey attrs "config_backups_list" with
      | none =>
        simp only [h2]
        cases hf : firstArrayAttr attrs ["backup_files", "files", "backups_list", "backups"] <;>
          simp [hf]
      | some w =>
        cases w <;> simp only [h2] <;>
          (try rfl) <;>
          (cases hf : firstArrayAttr attrs ["backup_files", "files", "backups_list", "backups"] <;>
            simp [hf])

theorem stagePermissionWith_rejects (st : PermState) (x n : String)
    (hdup : (st.currentServerPermissions.any (fun p => p.xuid == x) ||
      (lookupKey st.editData x).isSome) = true) :
    (stagePermissionWith st x n).editData = st.editData ∧
    (stagePermissionWith st x n).currentServerPermissions = st.currentServerPermissions ∧
    (stagePermissionWith st x n).error.isSome = true := by
  unfold stagePermissionWith
  by_cases hv : ¬ VALID_PERMISSIONS.contains st.newPlayerPermissionLevel
  · rw [if_pos hv]
    exact ⟨rfl, rfl, rfl⟩
  · rw [if_neg hv, if_pos hdup]
    exact ⟨rfl, rfl, rfl⟩

theorem validLevels_stagePermissionWith (st : PermState) (x n : String)
    (hl : validLevels st.editData = true) :
    validLevels (stagePermissionWith st x n).editData = true := by
  unfold stagePermissionWith
  by_cases hv : ¬ VALID_PERMISSIONS.contains st.newPlayerPermissionLevel
  · rw [if_pos hv]
    exact hl
  · rw [if_neg hv]
    by_cases hd : (st.currentServerPermissions.any (fun p => p.xuid == x) ||
        (lookupKey st.editData x).isSome) = true
    · rw [if_pos hd]
      exact hl
    · rw [if_neg hd]
      exact validLevels_setKey hl (by simpa using hv)

/-! ### Claim theorems -/

/-- C7: For every remote action invocation that fails, the failure is surfaced
as an error message extracted best-effort (Error object, nested `error`
field, nested `message` field, or plain string), and the staged edit overlay
is left exactly as it was before the invocation; baseline and overlay are
only updated on success (properties card: baseline and edit values merged;
permissions card: overlay cleared). -/
theorem C7_failure_preserves_overlay :
    (∀ (st : PropsState) (changed : List (String × JsonVal)) (err : JsErrVal),
      (savePropertiesFinish st changed (some err)).editValues = st.editValues ∧
      (savePropertiesFinish st changed (some err)).currentProperties = st.currentProperties ∧
      (savePropertiesFinish st changed (some err)).error =
        some ("Error: " ++ ((extractMessage err).getD "An unknown error occurred. Check HA logs."))) ∧
    (∀ (st : PermState) (err : JsErrVal),
      (savePermissionsFinish st (some err)).editData = st.editData ∧
      (savePermissionsFinish st (some err)).error =
        some ("Error saving permissions: " ++
          ((extractMessage err).getD "An unknown error occurred. Check Home Assistant logs."))) ∧
    (∀ (m : String), extractMessage (.errObj m) = some m) ∧
    (∀ (m : String), extractMessage (.jsStrErr m) = some m) ∧
    (∀ (e : String), e ≠ "" → extractMessage (.jsObj (some (.jstr e)) none) = some e) ∧
    (∀ (m : String), m ≠ "" → extractMessage (.jsObj none (some (.jstr m))) = some m) ∧
    (∀ (st : PropsState) (changed : List (String × JsonVal)),
      (savePropertiesFinish st changed none).currentProperties =
        mergeProps st.currentProperties changed ∧
      (savePropertiesFinish st changed none).editValues =
        mergeProps st.currentProperties changed) ∧
    (∀ st : PermState, (savePermissionsFinish st none).editData = []) := by
  refine ⟨fun st changed err => ⟨rfl, rfl, rfl⟩,
          fun st err => ⟨rfl, rfl⟩,
          fun m => rfl,
          fun m => rfl,
          fun e he => ?_,
          fun m hm => ?_,
          fun st changed => ⟨rfl, rfl⟩,
          fun st => rfl⟩
  · simp [extractMessage, truthy, jsStr, jsStrAtom, he]
  · simp [extractMessage, truthy, jsStr, jsStrAtom, hm]

/-- C7 witness: a failure object carrying a non-empty nested `error` field
has that field extracted as the message. -/
theorem C7_failure_preserves_overlay_witness :
    extractMessage (.jsObj (some (.jstr "boom")) none) = some "boom" :=
  C7_failure_preserves_overlay.2.2.2.2.1 "boom" (by decide)

/-- C8: In the properties card the number input for max-players is bounded to
[1, 200] and the one for view-distance to [3, 32]; the commit action sends
exactly the computed change-set (every key in the payload differs from
baseline after string normalisation, and the payload is the diff itself,
never the full baseline map). -/
theorem C8_bounds_and_minimal_payload :
    numberSelectorConfig "max-players" = some ⟨1, 200, 1, "box"⟩ ∧
    numberSelectorConfig "view-distance" = some ⟨3, 32, 1, "slider"⟩ ∧
    (∀ cur edits : List (String × JsonVal),
      (computeChangedProperties cur edits).all
        (fun kv => Option.map normVal (lookupKey cur kv.1) != some (normVal kv.2)) = true) ∧
    (∀ (st : PropsState) (d : String),
      (savePropertiesAction st (some d)).2 =
        (if (computeChangedProperties st.currentProperties st.editValues).isEmpty then none
         else some ⟨"update_properties",
           [("device_id", .jstr d),
            ("properties", .jobj (computeChangedProperties st.currentProperties st.editValues))]⟩)) := by
  refine ⟨rfl, rfl, fun cur edits => ?_, fun st d => ?_⟩
  · rw [List.all_eq_true]
    intro kv hkv
    obtain ⟨k, v⟩ := kv
    obtain ⟨-, ov, hcur, -, hne⟩ := mem_computeChangedProperties.mp hkv
    simp only [hcur, Option.map_some]
    exact bne_iff_ne.mpr (fun hc => hne (Option.some.inj hc))
  · by_cases hc : (computeChangedProperties st.currentProperties st.editValues).isEmpty
    · simp [savePropertiesAction, hc]
    · simp [savePropertiesAction, hc]

/-- C9: For every ingested backup list, starting from the reset selection
state, the restore card stores the list with null, non-string, and
whitespace-only entries removed, sorted in descending (code-point
lexicographic) order, and defaults the selected backup file to the first
element of the sorted list, or to the empty string when the filtered list is
empty. -/
theorem C9_backup_list_sorted_defaulted (found : List JsonVal) :
    (processFoundList found [] "").1 = sortDesc (validBackupNames found) ∧
    ((processFoundList found [] "").1).Sorted descRel ∧
    List.Perm ((processFoundList found [] "").1) (validBackupNames found) ∧
    (processFoundList found [] "").2 = ((processFoundList found [] "").1).headD "" := by
  have hs := sorted_sortDesc (validBackupNames found)
  have hp := perm_sortDesc (validBackupNames found)
  by_cases h : sortDesc (validBackupNames found) = ([] : List String)
  · have hres : processFoundList found [] "" = ([], "") := by
      unfold processFoundList
      simp [h]
    rw [hres]
    refine ⟨h.symm, by simp, ?_, rfl⟩
    rw [h] at hp
    exact hp
  · have hres : processFoundList found [] "" =
        (sortDesc (validBackupNames found), (sortDesc (validBackupNames found)).headD "") := by
      unfold processFoundList
      simp [h]
    rw [hres]
    exact ⟨rfl, hs, hp, rfl⟩

/-- C1 counterexample: in the permissions card, staging the level "member"
for XUID "123" — exactly the baseline level of that XUID — still puts the
key into the `set_permissions` payload: `_savePermissions` sends the whole
staged overlay, with no string-normalised diff against the baseline.  This
refutes the claim that in every card a staged key is included in the remote
payload only if it differs from baseline after normalisation. -/
theorem C1_staged_noop_included_cex :
    (handlePermissionLevelChange
        { currentServerPermissions := [⟨"123", "member"⟩], editData := [],
          globalPlayers := [], newPlayerSelectedXUID := "", newPlayerManualXUID := "",
          newPlayerManualName := "", newPlayerPermissionLevel := "visitor",
          error := none, feedback := "" } "123" "member").editData = [("123", "member")] ∧
    (List.find? (fun p => p.xuid == "123")
        [(⟨"123", "member"⟩ : PermEntry)]).map (fun p => p.permission_level) = some "member" ∧
    normVal (.jstr "member") = normVal (.jstr "member") ∧
    (savePermissionsAction
        (handlePermissionLevelChange
          { currentServerPermissions := [⟨"123", "member"⟩], editData := [],
            globalPlayers := [], newPlayerSelectedXUID := "", newPlayerManualXUID := "",
            newPlayerManualName := "", newPlayerPermissionLevel := "visitor",
            error := none, feedback := "" } "123" "member")
        true (some "dev")).2 =
      some ⟨"set_permissions",
        [("device_id", .jstr "dev"), ("permissions", .jobj [("123", .jstr "member")])]⟩ :=
  ⟨rfl, rfl, rfl, rfl⟩

/-- C1 (amended): in the properties card, a key with a staged overlay entry
is included in the `update_properties` change-set only if its
string-normalised representation differs from the normalised baseline value;
in particular, staging a value equal to baseline after normalisation (for
example numeric 10 against baseline string "10") excludes that key.  The
permissions card, by contrast, sends every staged overlay entry regardless
of baseline equality. -/
theorem C1_props_changeset_normalized :
    (∀ (cur edits : List (String × JsonVal)) (k : String) (ov ev : JsonVal),
      lookupKey cur k = some ov → lookupKey edits k = some ev → normVal ov = normVal ev →
      lookupKey (computeChangedProperties cur edits) k = none) ∧
    (∀ (cur edits : List (String × JsonVal)) (k : String) (v : JsonVal),
      (k, v) ∈ computeChangedProperties cur edits →
      ∃ ov, lookupKey cur k = some ov ∧ lookupKey edits k = some v ∧
        normVal ov ≠ normVal v) := by
  constructor
  · intro cur edits k ov ev hcur hed heq
    exact lookup_computeChangedProperties_eq_none hcur hed heq
  · intro cur edits k v hmem
    obtain ⟨-, ov, hcur, hed, hne⟩ := mem_computeChangedProperties.mp hmem
    exact ⟨ov, hcur, hed, hne⟩

/-- C1 witness: staging numeric 10 against the baseline string "10" for
max-players leaves the computed change-set without that key. -/
theorem C1_props_changeset_normalized_witness :
    lookupKey (computeChangedProperties
      [("max-players", JsonVal.jstr "10")] [("max-players", JsonVal.jnum 10)])
      "max-players" = none :=
  C1_props_changeset_normalized.1 [("max-players", JsonVal.jstr "10")]
    [("max-players", JsonVal.jnum 10)] "max-players" (JsonVal.jstr "10") (JsonVal.jnum 10)
    rfl rfl rfl

/-- C2 counterexample: when both the registry lookup and the `device_id`
attribute yield non-empty trimmed strings, the allowlist card resolver
returns the attribute value, not the registry value: its
`_getTargetDeviceId` consults the state attribute first and only falls back
to the registry. -/
theorem C2_attribute_first_cex :
    yieldDeviceId (some (.jstr "reg-dev")) = some "reg-dev" ∧
    yieldDeviceId (some (.jstr "attr-dev")) = some "attr-dev" ∧
    getTargetDeviceId_allowlist (some (.jstr "attr-dev")) (some (.jstr "reg-dev")) =
      some "attr-dev" ∧
    "attr-dev" ≠ "reg-dev" :=
  ⟨rfl, rfl, rfl, by decide⟩

/-- C2 (amended): when both the registry lookup and the `device_id` attribute
yield non-empty trimmed strings, the properties card resolver returns the
registry value (registry first) while the allowlist card resolver returns
the attribute value (attribute first); in both cards every returned
identifier is the trimmed form of the stored string. -/
theorem C2_resolver_order :
    (∀ (o : Option JsonVal) (s : String), yieldDeviceId o = some s →
      ∃ raw, o = some (.jstr raw) ∧ s = jsTrim raw) ∧
    (∀ (regVal attrVal : Option JsonVal) (rs a2 : String),
      yieldDeviceId regVal = some rs → yieldDeviceId attrVal = some a2 →
      getTargetDeviceId_props regVal attrVal = some rs ∧
      getTargetDeviceId_allowlist attrVal regVal = some a2) := by
  constructor
  · intro o s h
    match o with
    | none => exact absurd h (by simp [yieldDeviceId])
    | some .jnull => exact absurd h (by simp [yieldDeviceId])
    | some (.jbool b) => exact absurd h (by simp [yieldDeviceId])
    | some (.jnum n) => exact absurd h (by simp [yieldDeviceId])
    | some (.jarr xs) => exact absurd h (by simp [yieldDeviceId])
    | some (.jobj fs) => exact absurd h (by simp [yieldDeviceId])
    | some (.jstr raw) =>
      refine ⟨raw, rfl, ?_⟩
      have h2 : (if raw ≠ "" ∧ jsTrim raw ≠ "" then some (jsTrim raw) else none) = some s := h
      by_cases hc : raw ≠ "" ∧ jsTrim raw ≠ ""
      · rw [if_pos hc] at h2
        exact (Option.some.inj h2).symm
      · rw [if_neg hc] at h2
        exact absurd h2 (by simp)
  · intro regVal attrVal rs a2 hr ha
    unfold getTargetDeviceId_props getTargetDeviceId_allowlist
    rw [hr, ha]
    exact ⟨rfl, rfl⟩

/-- C2 witness: with registry value " r " and attribute value " a ", the
properties card resolver yields the trimmed registry value and the allowlist
card resolver the trimmed attribute value. -/
theorem C2_resolver_order_witness :
    getTargetDeviceId_props (some (.jstr " r ")) (some (.jstr " a ")) = some "r" ∧
    getTargetDeviceId_allowlist (some (.jstr " a ")) (some (.jstr " r ")) = some "a" :=
  C2_resolver_order.2 (some (.jstr " r ")) (some (.jstr " a ")) "r" "a" rfl rfl

/-- C3 counterexample: with attributes holding both `world_backups_list`
(first candidate in list order) and a generic `backups` array, the revised
restore card ingests `backups` — it examines the `backups` attribute before
the ordered candidate list — although `world_backups_list` is the first
candidate key (in list order) that is present and passes shape validation.
This refutes the claim that the ingestor always adopts the first matching
candidate in list order. -/
theorem C3_backups_precedence_cex :
    processBackupAttrs_p0
        [("world_backups_list", .jarr [.jstr "w.mcworld"]), ("backups", .jarr [.jstr "b.file"])]
        "x" = .found "backups" "unknown" [.jstr "b.file"] ∧
    firstArrayAttr
        [("world_backups_list", .jarr [.jstr "w.mcworld"]), ("backups", .jarr [.jstr "b.file"])]
        P0_CANDIDATES = some ("world_backups_list", [.jstr "w.mcworld"]) ∧
    "backups" ≠ "world_backups_list" :=
  ⟨rfl, rfl, by decide⟩

/-- C3 (amended): the original restore card ingestor adopts the first
candidate key in list order whose attribute is an array, and swapping two
non-matching candidate keys never changes the result; the revised restore
card examines the generic `backups` attribute first and only falls back to
first-match in candidate-list order when `backups` is absent. -/
theorem C3_first_match_order :
    (∀ (attrs : List (String × JsonVal)) (hint : String),
      (processBackupAttrs_old attrs hint).map (fun r => (r.1, r.2.2)) =
        firstArrayAttr attrs OLD_CANDIDATES) ∧
    (∀ (attrs : List (String × JsonVal)) (l1 l2 l3 : List String) (k1 k2 : String),
      isArrayAttr attrs k1 = false → isArrayAttr attrs k2 = false →
      firstArrayAttr attrs (l1 ++ (k1 :: (l2 ++ (k2 :: l3)))) =
        firstArrayAttr attrs (l1 ++ (k2 :: (l2 ++ (k1 :: l3))))) ∧
    (∀ (attrs : List (String × JsonVal)) (hint : String),
      lookupKey attrs "backups" = none →
      ingestKeyFiles (processBackupAttrs_p0 attrs hint) =
        firstArrayAttr attrs P0_CANDIDATES) := by
  refine ⟨processBackupAttrs_old_eq, ?_, ?_⟩
  · intro attrs l1 l2 l3 k1 k2 hk1 hk2
    have h1 : firstArrayAttr attrs (l1 ++ (k1 :: (l2 ++ (k2 :: l3)))) =
        firstArrayAttr attrs ((l1 ++ l2) ++ l3) := by
      rw [firstArrayAttr_drop_nonmatching hk1 l1 (l2 ++ (k2 :: l3)),
          ← List.append_assoc,
          firstArrayAttr_drop_nonmatching hk2 (l1 ++ l2) l3]
    have h2 : firstArrayAttr attrs (l1 ++ (k2 :: (l2 ++ (k1 :: l3)))) =
        firstArrayAttr attrs ((l1 ++ l2) ++ l3) := by
      rw [firstArrayAttr_drop_nonmatching hk2 l1 (l2 ++ (k1 :: l3)),
          ← List.append_assoc,
          firstArrayAttr_drop_nonmatching hk1 (l1 ++ l2) l3]
    rw [h1, h2]
  · intro attrs hint hb
    unfold processBackupAttrs_p0
    rw [hb]
    cases hf : firstArrayAttr attrs P0_CANDIDATES with
    | none => rfl
    | some kl => rfl

/-- C3 witness: swapping two non-matching keys around the matching key
`files` leaves the ingested list unchanged. -/
theorem C3_first_match_order_witness :
    firstArrayAttr [("files", JsonVal.jarr [JsonVal.jstr "f"])]
        (([] : List String) ++ ("a" :: (["files"] ++ ("b" :: [])))) =
      firstArrayAttr [("files", JsonVal.jarr [JsonVal.jstr "f"])]
        (([] : List String) ++ ("b" :: (["files"] ++ ("a" :: [])))) :=
  C3_first_match_order.2.1 [("files", JsonVal.jarr [JsonVal.jstr "f"])]
    [] ["files"] [] "a" "b" rfl rfl

/-- C4: whenever neither the registry lookup nor the `device_id` attribute
yields a non-empty string, both resolver variants return `none`, and every
mutating handler (add player, remove player, save properties, restore
backup) returns early with a user-visible error and emits no service call;
the revised restore card ingestion likewise records no target device id. -/
theorem C4_unresolved_blocks_actions :
    ∀ regVal attrVal : Option JsonVal,
      yieldDeviceId regVal = none → yieldDeviceId attrVal = none →
      getTargetDeviceId_props regVal attrVal = none ∧
      getTargetDeviceId_allowlist attrVal regVal = none ∧
      (∀ st : AllowlistState,
        (addPlayerAction st (getTargetDeviceId_allowlist attrVal regVal)).2 = none ∧
        (addPlayerAction st (getTargetDeviceId_allowlist attrVal regVal)).1.error.isSome = true) ∧
      (∀ (st : AllowlistState) (p : String), p ≠ "" →
        (removePlayerAction st (getTargetDeviceId_allowlist attrVal regVal) p).2 = none ∧
        (removePlayerAction st (getTargetDeviceId_allowlist attrVal regVal) p).1.error.isSome = true) ∧
      (∀ st : PropsState,
        (savePropertiesAction st (getTargetDeviceId_props regVal attrVal)).2 = none ∧
        (savePropertiesAction st (getTargetDeviceId_props regVal attrVal)).1.error.isSome = true) ∧
      (∀ (attrs : List (String × JsonVal)) (tail : String) (st0 : RestoreState),
        lookupKey attrs "device_id" = attrVal →
        (processSelectedSensor_p0 regVal attrs tail st0).targetDeviceId = none) ∧
      (∀ st : RestoreState, st.targetDeviceId = none →
        (restoreSelectedAction st).2 = none ∧
        (restoreSelectedAction st).1.error.isSome = true) := by
  intro regVal attrVal hr ha
  have hprops : getTargetDeviceId_props regVal attrVal = none := by
    unfold getTargetDeviceId_props
    rw [hr, ha]
  have hallow : getTargetDeviceId_allowlist attrVal regVal = none := by
    unfold getTargetDeviceId_allowlist
    rw [ha, hr]
  refine ⟨hprops, hallow, ?_, ?_, ?_, ?_, ?_⟩
  · intro st
    rw [hallow]
    exact ⟨rfl, rfl⟩
  · intro st p hp
    rw [hallow]
    unfold removePlayerAction
    rw [if_neg hp]
    exact ⟨rfl, rfl⟩
  · intro st
    rw [hprops]
    exact ⟨rfl, rfl⟩
  · intro attrs tail st0 hattr
    unfold processSelectedSensor_p0
    rw [hattr]
    cases hi : processBackupAttrs_p0 attrs
        (lowerStr (friendlyNameHint attrs tail)) with
    | found a b fs => simp [hi, hprops]
    | noMatch => simp [hi, hprops]
  · intro st hst
    unfold restoreSelectedAction
    rw [hst]
    exact ⟨rfl, rfl⟩

/-- C4 witness: with an absent registry entry and a whitespace-only
`device_id` attribute, the properties card save handler emits no call and
surfaces an error. -/
theorem C4_unresolved_blocks_actions_witness :
    getTargetDeviceId_props none (some (.jstr " ")) = none ∧
    (savePropertiesAction ⟨[("max-players", .jstr "10")], [("max-players", .jstr "9")], none, ""⟩
        (getTargetDeviceId_props none (some (.jstr " ")))).2 = none ∧
    (savePropertiesAction ⟨[("max-players", .jstr "10")], [("max-players", .jstr "9")], none, ""⟩
        (getTargetDeviceId_props none (some (.jstr " ")))).1.error.isSome = true := by
  have h := C4_unresolved_blocks_actions none (some (.jstr " ")) rfl rfl
  exact ⟨h.1,
    (h.2.2.2.2.1 ⟨[("max-players", .jstr "10")], [("max-players", .jstr "9")], none, ""⟩).1,
    (h.2.2.2.2.1 ⟨[("max-players", .jstr "10")], [("max-players", .jstr "9")], none, ""⟩).2⟩

/-- C5: a snapshot whose `backups` attribute is a per-category object maps to
the combined display list with type `all` (sorted descending, World entry
first, selected by default), and restoring the selected entry
"World: a.mcworld" decomposes it back into the payload
`restore_type = "world"`, `backup_file = "a.mcworld"`. -/
theorem C5_categorized_roundtrip :
    (processSelectedSensor_p0 (some (.jstr "dev"))
        [("backups", .jobj [("world_backups", .jarr [.jstr "a.mcworld"]),
                            ("properties_backups", .jarr [.jstr "b.properties"])])]
        "backups_sensor" resetRestoreState).backupType = some "all" ∧
    (processSelectedSensor_p0 (some (.jstr "dev"))
        [("backups", .jobj [("world_backups", .jarr [.jstr "a.mcworld"]),
                            ("properties_backups", .jarr [.jstr "b.properties"])])]
        "backups_sensor" resetRestoreState).availableBackups =
      ["World: a.mcworld", "Properties: b.properties"] ∧
    (processSelectedSensor_p0 (some (.jstr "dev"))
        [("backups", .jobj [("world_backups", .jarr [.jstr "a.mcworld"]),
                            ("properties_backups", .jarr [.jstr "b.properties"])])]
        "backups_sensor" resetRestoreState).selectedBackupFile = "World: a.mcworld" ∧
    (restoreSelectedAction (processSelectedSensor_p0 (some (.jstr "dev"))
        [("backups", .jobj [("world_backups", .jarr [.jstr "a.mcworld"]),
                            ("properties_backups", .jarr [.jstr "b.properties"])])]
        "backups_sensor" resetRestoreState)).2 =
      some ⟨"restore_backup",
        [("device_id", .jstr "dev"), ("restore_type", .jstr "world"),
         ("backup_file", .jstr "a.mcworld")]⟩ :=
  ⟨rfl, rfl, rfl, rfl⟩

/-- C6: staging a brand-new item whose key already exists in the baseline or
already has a staged overlay entry (a player name already on the allowlist,
an XUID already holding or staged for a permission) is rejected with an
error and modifies neither the baseline nor the overlay, and no service call
is issued. -/
theorem C6_duplicate_stage_rejected :
    (∀ (st : PermState) (xuid : String),
      resolvedNewXuid st = some xuid →
      (st.currentServerPermissions.any (fun p => p.xuid == xuid) ||
        (lookupKey st.editData xuid).isSome) = true →
      (stageNewPlayerPermission st).editData = st.editData ∧
      (stageNewPlayerPermission st).currentServerPermissions = st.currentServerPermissions ∧
      (stageNewPlayerPermission st).error.isSome = true) ∧
    (∀ (st : AllowlistState) (target : Option String),
      st.currentAllowlist.contains (jsTrim st.newPlayerName) = true →
      (addPlayerAction st target).2 = none ∧
      (addPlayerAction st target).1.currentAllowlist = st.currentAllowlist ∧
      (addPlayerAction st target).1.error.isSome = true) := by
  constructor
  · intro st xuid hres hdup
    unfold resolvedNewXuid at hres
    unfold stageNewPlayerPermission
    by_cases h1 : st.newPlayerSelectedXUID ≠ ""
    · rw [if_pos h1] at hres
      rw [if_pos h1]
      obtain rfl := Option.some.inj hres
      exact stagePermissionWith_rejects st _ _ hdup
    · rw [if_neg h1] at hres
      rw [if_neg h1]
      by_cases h2 : st.newPlayerManualXUID ≠ ""
      · rw [if_pos h2] at hres
        rw [if_pos h2]
        obtain rfl := Option.some.inj hres
        rw [if_neg h2]
        exact stagePermissionWith_rejects st _ _ hdup
      · rw [if_neg h2] at hres
        exact absurd hres (by simp)
  · intro st target hdup
    cases target with
    | none => exact ⟨rfl, rfl, rfl⟩
    | some d =>
      unfold addPlayerAction
      simp only []
      by_cases hp : jsTrim st.newPlayerName = ""
      · rw [if_pos hp]
        exact ⟨rfl, rfl, rfl⟩
      · rw [if_neg hp, if_pos hdup]
        exact ⟨rfl, rfl, rfl⟩

/-- C6 witness: adding "Steve" when "Steve" is already on the allowlist
issues no call and records an error, leaving the list untouched. -/
theorem C6_duplicate_stage_rejected_witness :
    (addPlayerAction ⟨["Steve"], "Steve", false, none, ""⟩ (some "dev")).2 = none ∧
    (addPlayerAction ⟨["Steve"], "Steve", false, none, ""⟩ (some "dev")).1.currentAllowlist =
      ["Steve"] ∧
    (addPlayerAction ⟨["Steve"], "Steve", false, none, ""⟩ (some "dev")).1.error.isSome = true :=
  C6_duplicate_stage_rejected.2 ⟨["Steve"], "Steve", false, none, ""⟩ (some "dev") rfl

/-- C10: every value stored in the permissions card staged overlay is one of
the three valid levels: the empty overlay is valid, both staging paths
preserve validity (rejecting any other level before modifying the map), and
the `set_permissions` payload is exactly the staged overlay, so it can never
contain an invalid level. -/
theorem C10_overlay_levels_valid :
    validLevels [] = true ∧
    (∀ (st : PermState) (x lvl : String), validLevels st.editData = true →
      validLevels (handlePermissionLevelChange st x lvl).editData = true) ∧
    (∀ st : PermState, validLevels st.editData = true →
      validLevels (stageNewPlayerPermission st).editData = true) ∧
    (∀ (st : PermState) (hasSel : Bool) (target : Option String) (sc : ServiceCall),
      (savePermissionsAction st hasSel target).2 = some sc →
      ∃ d, sc = ⟨"set_permissions",
        [("device_id", .jstr d),
         ("permissions", .jobj (st.editData.map fun kv => (kv.1, .jstr kv.2)))]⟩) := by
  refine ⟨rfl, ?_, ?_, ?_⟩
  · intro st x lvl hl
    unfold handlePermissionLevelChange
    split
    · exact hl
    · rename_i hv
      exact validLevels_setKey hl (by simpa using hv)
  · intro st hl
    unfold stageNewPlayerPermission
    by_cases h1 : st.newPlayerSelectedXUID ≠ ""
    · rw [if_pos h1]
      exact validLevels_stagePermissionWith st _ _ hl
    · rw [if_neg h1]
      by_cases h2 : st.newPlayerManualXUID ≠ ""
      · rw [if_pos h2, if_neg h2]
        exact validLevels_stagePermissionWith st _ _ hl
      · rw [if_neg h2]
        exact hl
  · intro st hasSel target sc hsc
    unfold savePermissionsAction at hsc
    cases hasSel with
    | false => exact absurd hsc (by simp)
    | true =>
      by_cases he : st.editData.isEmpty
      · rw [if_neg (by simp), if_pos he] at hsc
        exact absurd hsc (by simp)
      · rw [if_neg (by simp), if_neg he] at hsc
        cases target with
        | none => exact absurd hsc (by simp)
        | some d => exact ⟨d, (Option.some.inj hsc).symm⟩

/-- C10 witness: staging level "operator" for a new XUID on top of a valid
overlay keeps every staged value a valid level. -/
theorem C10_overlay_levels_valid_witness :
    validLevels (handlePermissionLevelChange
      ⟨[], [("1", "member")], [], "", "", "", "visitor", none, ""⟩ "2" "operator").editData = true :=
  C10_overlay_levels_valid.2.1 ⟨[], [("1", "member")], [], "", "", "", "visitor", none, ""⟩
    "2" "operator" rfl

end BSM
